import Mathlib

/-!
# Verification of the Rehab-Flow pipeline

A shallow embedding of `src/rehab_flow/main.py` (project Rehab-Flow), the
five-stage rehabilitation outpatient workflow: intake (`get_user_input`),
inquiry refinement (`inquiry_assistance`), diagnosis with a differential
elimination sub-loop (`diagnosis_assistance`), treatment planning
(`treatment_plan_creation`) and report synthesis (`multiagents_report`).

External effects are modelled explicitly: every LLM/crew call is an input
drawn from an environment record (`FlowEnv`), console `input()` answers are
environment fields, and file writes are returned as (path, content) pairs.
Python strings are modelled as `List Char`, Python `dict`s as association
lists updated in insertion order.  The code-fence stripping helper
`clean_and_parse_json` (main.py lines 180-197) is embedded together with a
faithful executable model of the backtracking search for the regular
expression three-backticks `(?:json)?\s*(.*?)\s*` three-backticks used
there (lazy inner group, DOTALL, leftmost match).
-/

namespace RehabFlow

/-! ## Python whitespace, `str.strip()` and the fence regex -/

/-- The backtick character. -/
def btk : Char := Char.ofNat 96

/-- Python's whitespace notion, shared by `str.strip()` and `\s` on `str`
patterns: ASCII whitespace, the C1 separators, and the Unicode
White_Space code points. -/
def isWS (c : Char) : Bool :=
  let v := c.val
  (0x09 ≤ v && v ≤ 0x0D) || v == 0x20 || (0x1C ≤ v && v ≤ 0x1F) ||
    v == 0x85 || v == 0xA0 || v == 0x1680 || (0x2000 ≤ v && v ≤ 0x200A) ||
    v == 0x2028 || v == 0x2029 || v == 0x202F || v == 0x205F || v == 0x3000

/-- Python `str.lower()` on the ASCII strings the flow compares
(`"Professional"`, `"q"`, `"yes"`, `"no"` …), character-wise.  (Core's
`String.toLower` is not kernel-reducible, so the map is taken over the
character list.) -/
def pyLower (s : String) : String := String.mk (s.data.map Char.toLower)

/-- Python `str.lstrip()`. -/
def lstrip (l : List Char) : List Char := l.dropWhile isWS

/-- Python `str.rstrip()`. -/
def rstrip (l : List Char) : List Char := (l.reverse.dropWhile isWS).reverse

/-- Python `str.strip()`. -/
def pyStrip (l : List Char) : List Char := rstrip (lstrip l)

/-- Does the text begin with three backticks (the regex literal)? -/
def startsWithFence : List Char → Bool
  | a :: b :: c :: _ => a == btk && b == btk && c == btk
  | _ => false

/-- Does the text begin with the optional `json` tag of the fence regex? -/
def startsWithTag : List Char → Bool
  | 'j' :: 's' :: 'o' :: 'n' :: _ => true
  | _ => false

/-- At this point of the subject, can the tail of the regex (`\s*` then
three backticks) match?  Because `\s*` backtracks from its greedy maximum
down to the empty run and the closing fence begins with a non-whitespace
character, this holds exactly when the whitespace run in front of the next
non-whitespace character is followed by three backticks. -/
def closesAt (u : List Char) : Bool := startsWithFence (lstrip u)

/-- The lazy group `(.*?)` of the fence regex: the shortest prefix of `u`
after which `\s*` and the closing three backticks match; `none` when no
closing fence exists.  DOTALL is in force, so the group ranges over all
characters. -/
def findGroup : List Char → Option (List Char)
  | [] => none
  | a :: rest =>
    if closesAt (a :: rest) then some []
    else (findGroup rest).map (fun g => a :: g)

/-- One anchored match attempt of the fence regex: three backticks, the
optional greedy `json` tag, the greedy first `\s*`, then the lazy group.
(The greedy choices never need cross-backtracking: whether a closing fence
exists further right does not depend on them.) -/
def matchFenceAt (s : List Char) : Option (List Char) :=
  match s with
  | a :: b :: c :: rest =>
    if a == btk && b == btk && c == btk then
      findGroup (lstrip (if startsWithTag rest then rest.drop 4 else rest))
    else none
  | _ => none

/-- `re.search`: the leftmost starting position at which the fence regex
matches, returning group 1. -/
def searchFence : List Char → Option (List Char)
  | [] => none
  | a :: rest =>
    match matchFenceAt (a :: rest) with
    | some g => some g
    | none => searchFence rest

/-- main.py lines 180-197, `clean_and_parse_json`: extract the fenced block
(group 1 of the regex) when the fence regex matches, else return the
stripped response.  (The function returns the cleaned string; the
`try/except` around the `return` is dead code.) -/
def clean_and_parse_json (response : List Char) : List Char :=
  match searchFence response with
  | some g => g
  | none => pyStrip response

/-- Content wrapped as a Markdown ```json fenced block, the shape the
docstring of `clean_and_parse_json` names (```json opener, ``` closer). -/
def wrapJson (c : List Char) : List Char :=
  "```json\n".toList ++ c ++ "\n```".toList

/-- Does the text contain a run of three backticks? -/
def hasFence : List Char → Bool
  | [] => false
  | a :: rest => startsWithFence (a :: rest) || hasFence rest

/-- The trailing characters `wrapJson` appends: newline then the closing
fence. -/
def nlFence : List Char := "\n```".toList

/-! ## Structured agent output and the inquiry-stage response validation -/

/-- A parsed structured (JSON) value. -/
inductive Json where
  | null
  | bool (b : Bool)
  | num (n : Int)
  | str (s : String)
  | arr (elems : List Json)
  | obj (fields : List (String × Json))

/-- The opening object delimiter. -/
def lbrace : Char := Char.ofNat 123

/-- Does the text start with the object delimiter (Python
`startswith` of the opening brace)? -/
def startsWithObj : List Char → Bool
  | c :: _ => c == lbrace
  | _ => false

/-- Is an `Except` an error? -/
def isErrB {ε α : Type} : Except ε α → Bool
  | Except.error _ => true
  | Except.ok _ => false

/-- main.py lines 199-210 (inquiry refinement): the response is passed
through `clean_and_parse_json`; a `ValueError` is raised when the stripped
text is empty, when it does not start with the object delimiter, and when
`json.loads` fails.  `json.loads` is the Python standard library and is
taken as a parameter `loads` (`none` = `JSONDecodeError`). -/
def validateInquiryResponse (loads : List Char → Option Json)
    (response : List Char) : Except String Json :=
  let clean_response := clean_and_parse_json response
  if pyStrip clean_response = [] then
    Except.error "LLM response is empty. Please check the input and try again."
  else if ¬ (startsWithObj (pyStrip clean_response) = true) then
    Except.error "LLM response does not start with an object delimiter."
  else
    match loads clean_response with
    | some j => Except.ok j
    | none => Except.error "JSON parsing error"

/-! ## Dictionaries

Python `dict[str, str]` with insertion-order semantics, as association
lists: assignment `d[k] = v` replaces the value in place when the key
exists and appends otherwise. -/

/-- `d[k] = v`. -/
def dinsert (d : List (String × String)) (k v : String) : List (String × String) :=
  match d with
  | [] => [(k, v)]
  | (k', v') :: rest => if k' = k then (k, v) :: rest else (k', v') :: dinsert rest k v

/-- `d.get(k)` (`None` when absent). -/
def dlookup (d : List (String × String)) (k : String) : Option String :=
  match d with
  | [] => none
  | (k', v') :: rest => if k' = k then some v' else dlookup rest k

/-- Python `dict.update`: fold the entries of `upd` into `d` in order. -/
def dupdate (d upd : List (String × String)) : List (String × String) :=
  upd.foldl (fun acc kv => dinsert acc kv.1 kv.2) d

/-! ## Data model (main.py lines 45-70) -/

/-- main.py lines 52-61 (the source spells the class name this way). -/
structure InitialInquriy where
  main_complain : String := ""
  history_of_present_illness : String := ""
  past_medical_history : String := ""
  allergy_history : String := ""
  family_history : String := ""
  physical_examination : String := ""
  personal_history : String := ""
  auxiliary_examination : List (String × String) := []
deriving Repr, DecidableEq

/-- main.py lines 45-50. -/
structure ProcessOutline where
  complete_sections : List String := []
  supplementary_inquiries : List (String × String) := []
  suggested_diagnostic_dialectics : List (List (String × String)) := []
  supplementary_auxiliary_examinations : List (String × String) := []
deriving Repr, DecidableEq

/-- main.py lines 63-69 (`PatientState`). -/
structure PatientState where
  initial_inquiry : InitialInquriy := {}
  audience_level : String := ""
  process_outline : ProcessOutline := {}
  diagnosis_result : List (String × String) := []
  treatment_plan : List (String × String) := []
deriving Repr, DecidableEq

/-! ## Agent replies

Each LLM/crew reply, after `json.loads` and the `.get(key, default)`
accesses of main.py, is a record whose fields carry the source's defaults
(a missing key is the record with the default value). -/

/-- The parsed inquiry-advisor reply (main.py lines 213-233). -/
structure InquiryReply where
  inquiry_analysis : String := "无问诊总结"
  supplementary_inquiries : List String := []
  inquiry_complete : String := ""
deriving Repr, DecidableEq

/-- The parsed diagnosis-crew reply (main.py lines 290-330). -/
structure DiagnosisReply where
  diagnosis_conclusion : String := "无诊断结论"
  diagnosis_basis : String := "无诊断依据"
  other_diagnosis_possibility : List (List (String × String)) := []
  quality_control_feedback : String := "无质控反馈"
  suggested_question : String := "无建议问题"
  suggested_auxiliary_examinations : List (List (String × String)) := []
deriving Repr, DecidableEq

/-- The parsed possibilities-elimination reply (main.py lines 361-417). -/
structure ElimReply where
  further_inquiries_needed : String := "unknown"
  diagnosis_conclusion : String := "无更新诊断结论"
  diagnosis_basis : String := "无更新诊断依据"
  other_diagnosis_possibility : List (List (String × String)) := []
  suggested_auxiliary_check : List String := []
  suggested_question : String := "无建议问题"
deriving Repr, DecidableEq

/-- The local variable `suggested_diagnostic_dialectics` of
`diagnosis_assistance` holds either a dict (lines 337, 415, 420) or the
placeholder string (line 339). -/
inductive DialVal where
  | dict (d : List (String × String))
  | str (s : String)
deriving Repr, DecidableEq

/-- The mutable locals of the elimination sub-loop (main.py lines
344-420) together with the process outline it updates. -/
structure ElimState where
  diagnosis_conclusion : String
  diagnosis_basis : String
  str_of_other : String
  dial : DialVal
  po : ProcessOutline
deriving Repr, DecidableEq

/-- The input bindings handed to `TreatmentPlanCrew` (main.py lines
471-483). -/
structure TreatCrewInputs where
  audience_level : String
  diagnosis_conclusion : String
  diagnosis_basis : String
  supplementary_auxiliary_examinations : List (String × String)
  suggested_diagnostic_dialectics : List (String × String)
  history_of_present_illness : String
  past_medical_history : String
  allergy_history : String
  family_history : String
  personal_history : String
deriving Repr, DecidableEq

/-- What `treatment_plan_creation` produces: the updated state, the one
file it writes, and whether/with which bindings the crew was invoked. -/
structure TreatResult where
  state : PatientState
  file : String × String
  crewCalled : Bool
  crewInputs : Option TreatCrewInputs
deriving Repr, DecidableEq

/-- The environment of one run: every external input the flow consumes —
parsed agent replies per call, operator console answers, and the random
file identifiers. -/
structure FlowEnv where
  inquiryReplies : Nat → InquiryReply
  inquiryAnswers : Nat → Nat → String
  diagSkipInput : String
  manualConclusion : String
  manualBasis : String
  diagReply : DiagnosisReply
  diagQuestionAnswer : String
  diagCheckAnswers : Nat → String
  elimReplies : Nat → ElimReply
  elimCheckAnswers : Nat → Nat → String
  elimQuestionAnswers : Nat → String
  planSkipInput : String
  manualPlan : String
  planId : String
  planReply : List (String × String)
  planRaw : String
  reportRaw : String
  reportId : String

/-! ## Stage 1: intake (main.py lines 76-130, `get_user_input`) -/

/-- The audience levels the intake validation accepts (main.py line 124). -/
def audience_options : List String :=
  ["non-professional", "professional", "top-expert"]

/-- main.py lines 76-130: the intake fields are hard-coded in the source
(the `input()` calls are commented out), and the audience `while` loop
lowers `"Professional"`, checks it against `audience_options` and assigns
it; with the hard-coded value the loop exits on its first pass, so the
`else` branch (the loop re-prompting) is unreachable here. -/
def get_user_input : PatientState :=
  let audience := pyLower "Professional"
  { initial_inquiry :=
      { main_complain := "骑车摔倒，小臂疼痛，无法活动"
        history_of_present_illness := "一年前小臂骨折"
        past_medical_history := "无其他疾病史"
        allergy_history := "无药物过敏史"
        family_history := "无家族遗传病史"
        physical_examination := "小臂肿胀，压痛明显，活动受限"
        personal_history := "无吸烟饮酒史，工作压力大，缺乏锻炼"
        auxiliary_examination := [("X-ray", "显示小臂骨折愈合不良")] }
    audience_level := if audience ∈ audience_options then audience else ""
    process_outline := {}
    diagnosis_result := []
    treatment_plan := [] }

/-! ## Stage 2: inquiry refinement (main.py lines 132-237) -/

/-- main.py lines 218-230: for each suggested supplementary inquiry, the
operator's answer is recorded under the suggestion text unless it is the
empty line. -/
def recordSupAnswers (ans : Nat → String) :
    Nat → List String → List (String × String) → List (String × String)
  | _, [], d => d
  | i, q :: rest, d =>
    recordSupAnswers ans (i + 1) rest (if ans i ≠ "" then dinsert d q (ans i) else d)

/-- One iteration of the inquiry-refinement loop body (main.py lines
212-235, after the parse): record the analysis under the key
`"inquiry_analysis"`, record the operator's supplementary answers, and
append `"initial_inquiry"` to the completed sections when the reply's
`inquiry_complete` lowers to `"yes"`. -/
def inquiryStep (reply : InquiryReply) (ans : Nat → String)
    (po : ProcessOutline) : ProcessOutline :=
  let d1 := dinsert po.supplementary_inquiries "inquiry_analysis" reply.inquiry_analysis
  let po := { po with supplementary_inquiries := d1 }
  let d2 := recordSupAnswers ans 0 reply.supplementary_inquiries po.supplementary_inquiries
  let po := { po with supplementary_inquiries := d2 }
  if pyLower reply.inquiry_complete = "yes" then
    { po with complete_sections := po.complete_sections ++ ["initial_inquiry"] }
  else po

/-- main.py line 144, `while "initial_inquiry" not in complete_sections and
iter_times < 2`.  `it` is `iter_times` (incremented by one per iteration,
line 235) and `remaining` is `2 - iter_times`, so `remaining > 0` is the
`iter_times < 2` conjunct; the second component counts the body executions.
-/
def inquiryLoopGo (replies : Nat → InquiryReply) (ans : Nat → Nat → String) :
    Nat → Nat → ProcessOutline → ProcessOutline × Nat
  | 0, _, po => (po, 0)
  | remaining + 1, it, po =>
    if "initial_inquiry" ∈ po.complete_sections then (po, 0)
    else
      let po' := inquiryStep (replies it) (ans it) po
      let r := inquiryLoopGo replies ans remaining (it + 1) po'
      (r.1, r.2 + 1)

/-- main.py lines 132-237, `inquiry_assistance`: the bounded refinement
loop starting at `iter_times = 0`, returning the updated outline and the
number of iterations executed. -/
def inquiry_assistance (replies : Nat → InquiryReply) (ans : Nat → Nat → String)
    (po : ProcessOutline) : ProcessOutline × Nat :=
  inquiryLoopGo replies ans 2 0 po

/-! ## Stage 3: diagnosis and the elimination sub-loop (main.py lines 239-436) -/

/-- main.py lines 303-306 and 391-394: serialize the list of alternative
possibilities as `k:v` pairs joined by `", "`, entries joined by `"; "`. -/
def strOfPossibilities (l : List (List (String × String))) : String :=
  String.intercalate "; "
    (l.map (fun d => String.intercalate ", " (d.map (fun kv => kv.1 ++ ":" ++ kv.2))))

/-- main.py line 330: a suggested auxiliary examination is recorded under
its `"examination_name"` field (default `"无检查项目"`). -/
def examName (d : List (String × String)) : String :=
  (dlookup d "examination_name").getD "无检查项目"

/-- main.py lines 324-333: record the operator's result for each suggested
examination, keyed by its `examination_name`, skipping empty answers. -/
def recordExamAnswers (ans : Nat → String) :
    Nat → List (List (String × String)) → List (String × String) →
      List (String × String)
  | _, [], d => d
  | i, e :: rest, d =>
    recordExamAnswers ans (i + 1) rest
      (if ans i ≠ "" then dinsert d (examName e) (ans i) else d)

/-- main.py lines 401-409: record the operator's result for each suggested
auxiliary check of an elimination reply (the raw check string is the key),
skipping empty answers. -/
def recordCheckAnswers (ans : Nat → String) :
    Nat → List String → List (String × String) → List (String × String)
  | _, [], d => d
  | i, c :: rest, d =>
    recordCheckAnswers ans (i + 1) rest
      (if ans i ≠ "" then dinsert d c (ans i) else d)

/-- One iteration of the elimination sub-loop body (main.py lines 347-420).
Returns the updated locals/outline and the value of
`ready_to_treatment_plan` after the iteration:

* `further_inquiries_needed` lowers to `"no"` (lines 364-372): update the
  conclusion and basis and exit;
* else update conclusion/basis (lines 376-380); an empty revised
  possibility list exits (lines 385-387); otherwise re-serialize the list,
  exit when the suggested auxiliary check list is empty (lines 397-399)
  else record the operator's check results (lines 401-409), and in either
  case process the suggested question (lines 411-420). -/
def elimStep (reply : ElimReply) (checkAns : Nat → String) (qAns : String)
    (s : ElimState) : ElimState × Bool :=
  if pyLower reply.further_inquiries_needed = "no" then
    ({ s with diagnosis_conclusion := reply.diagnosis_conclusion
              diagnosis_basis := reply.diagnosis_basis }, true)
  else
    let s := { s with diagnosis_conclusion := reply.diagnosis_conclusion
                      diagnosis_basis := reply.diagnosis_basis }
    if reply.other_diagnosis_possibility.isEmpty then (s, true)
    else
      let s := { s with str_of_other := strOfPossibilities reply.other_diagnosis_possibility }
      let ready := reply.suggested_auxiliary_check.isEmpty
      let s :=
        if ready then s
        else
          let aux := recordCheckAnswers checkAns 0 reply.suggested_auxiliary_check
            s.po.supplementary_auxiliary_examinations
          { s with po := { s.po with supplementary_auxiliary_examinations := aux } }
      let s :=
        if qAns ≠ "" then
          let d := [(reply.suggested_question, qAns)]
          let dia := s.po.suggested_diagnostic_dialectics ++ [d]
          { s with dial := DialVal.dict d
                   po := { s.po with suggested_diagnostic_dialectics := dia } }
        else { s with dial := DialVal.dict [] }
      (s, ready)

/-- main.py lines 346-420, `while ready_to_treatment_plan != True`.  The
source has no iteration bound (its comments call this an open risk), so the
loop is run on `fuel`; `none` means the loop did not finish within `fuel`
iterations.  `k` indexes the elimination-crew call; the `Nat` of the
result counts the iterations executed. -/
def elimLoop (replies : Nat → ElimReply) (checkAns : Nat → Nat → String)
    (qAns : Nat → String) : Nat → Nat → ElimState → Option (ElimState × Nat)
  | 0, _, _ => none
  | fuel + 1, k, s =>
    let r := elimStep (replies k) (checkAns k) (qAns k) s
    if r.2 then some (r.1, 1)
    else (elimLoop replies checkAns qAns fuel (k + 1) r.1).map (fun p => (p.1, p.2 + 1))

/-- main.py lines 311-333: before the elimination guard, the operator's
answer to the suggested question is appended to the dialectics (313-319)
and the suggested auxiliary examinations are folded into the outline
(322-333). -/
def diagOutlineUpd (env : FlowEnv) (reply : DiagnosisReply) (po : ProcessOutline) :
    ProcessOutline :=
  let po :=
    if env.diagQuestionAnswer ≠ "" then
      let dia := po.suggested_diagnostic_dialectics ++
        [[(reply.suggested_question, env.diagQuestionAnswer)]]
      { po with suggested_diagnostic_dialectics := dia }
    else po
  if reply.suggested_auxiliary_examinations.isEmpty then po
  else
    let aux := recordExamAnswers env.diagCheckAnswers 0
      reply.suggested_auxiliary_examinations po.supplementary_auxiliary_examinations
    { po with supplementary_auxiliary_examinations := aux }

/-- main.py lines 239-436, `diagnosis_assistance`.  Returns the updated
state and the number of elimination iterations executed; `none` when the
elimination sub-loop did not finish within `fuel` iterations.

* Lines 244-255: entering `q` bypasses the stage — the manually entered
  conclusion/basis become the diagnosis result and `"diagnosis"` is
  appended.
* Lines 257-434: otherwise the diagnosis-crew reply provides
  conclusion/basis/possibilities; the suggested question (313-319) and
  suggested examinations (322-333) are folded into the outline; the
  elimination sub-loop runs only when the possibility list is non-empty
  (line 344); finally the diagnosis result is stored and `"diagnosis"`
  appended (427-433). -/
def diagnosis_assistance (env : FlowEnv) (fuel : Nat) (st : PatientState) :
    Option (PatientState × Nat) :=
  if pyLower env.diagSkipInput = "q" then
    let dres := [("diagnosis_conclusion", env.manualConclusion),
                 ("diagnosis_basis", env.manualBasis)]
    let cs := st.process_outline.complete_sections ++ ["diagnosis"]
    some ({ st with diagnosis_result := dres
                    process_outline := { st.process_outline with complete_sections := cs } }, 0)
  else
    let reply := env.diagReply
    let po := diagOutlineUpd env reply st.process_outline
    let dial :=
      match po.suggested_diagnostic_dialectics.getLast? with
      | some d => DialVal.dict d
      | none => DialVal.str "暂无建议的诊断对话"
    if reply.other_diagnosis_possibility.isEmpty then
      let dres := [("diagnosis_conclusion", reply.diagnosis_conclusion),
                   ("diagnosis_basis", reply.diagnosis_basis)]
      let cs := po.complete_sections ++ ["diagnosis"]
      some ({ st with diagnosis_result := dres
                      process_outline := { po with complete_sections := cs } }, 0)
    else
      let es0 : ElimState :=
        { diagnosis_conclusion := reply.diagnosis_conclusion
          diagnosis_basis := reply.diagnosis_basis
          str_of_other := strOfPossibilities reply.other_diagnosis_possibility
          dial := dial
          po := po }
      match elimLoop env.elimReplies env.elimCheckAnswers env.elimQuestionAnswers fuel 0 es0 with
      | none => none
      | some (es, n) =>
        let dres := [("diagnosis_conclusion", es.diagnosis_conclusion),
                     ("diagnosis_basis", es.diagnosis_basis)]
        let cs := es.po.complete_sections ++ ["diagnosis"]
        some ({ st with diagnosis_result := dres
                        process_outline := { es.po with complete_sections := cs } }, n)

/-! ## Stage 4: treatment planning (main.py lines 440-505) -/

/-- main.py lines 440-505, `treatment_plan_creation`.  The file name is
generated before the branch (line 445).  Entering `q` (446-454) writes the
manually entered plan verbatim and stores it under
`"manual_treatment_plan"` without invoking the crew; otherwise (456-500)
the crew is invoked — note line 462: the binding named
`suggested_diagnostic_dialectics` is assigned
`supplementary_auxiliary_examinations`, not the recorded dialectics — the
parsed plan is merged into the state and the raw reply written to the
file.  Either way `"treatment plan"` is appended afterwards (line 504). -/
def treatment_plan_creation (env : FlowEnv) (st : PatientState) : TreatResult :=
  let fname := "treatment_plans/treatment_plan_" ++ env.planId ++ ".md"
  if pyLower env.planSkipInput = "q" then
    let tp := dinsert st.treatment_plan "manual_treatment_plan" env.manualPlan
    let st := { st with treatment_plan := tp }
    let cs := st.process_outline.complete_sections ++ ["treatment plan"]
    { state := { st with process_outline := { st.process_outline with complete_sections := cs } }
      file := (fname, env.manualPlan)
      crewCalled := false
      crewInputs := none }
  else
    let ci : TreatCrewInputs :=
      { audience_level := st.audience_level
        diagnosis_conclusion := (dlookup st.diagnosis_result "diagnosis_conclusion").getD "无诊断结论"
        diagnosis_basis := (dlookup st.diagnosis_result "diagnosis_basis").getD "无诊断依据"
        supplementary_auxiliary_examinations :=
          st.process_outline.supplementary_auxiliary_examinations
        suggested_diagnostic_dialectics :=
          st.process_outline.supplementary_auxiliary_examinations
        history_of_present_illness := st.initial_inquiry.history_of_present_illness
        past_medical_history := st.initial_inquiry.past_medical_history
        allergy_history := st.initial_inquiry.allergy_history
        family_history := st.initial_inquiry.family_history
        personal_history := st.initial_inquiry.personal_history }
    let st := { st with treatment_plan := dupdate st.treatment_plan env.planReply }
    let cs := st.process_outline.complete_sections ++ ["treatment plan"]
    { state := { st with process_outline := { st.process_outline with complete_sections := cs } }
      file := (fname, env.planRaw)
      crewCalled := true
      crewInputs := some ci }

/-! ## Stage 5: report synthesis (main.py lines 508-576) -/

/-- main.py lines 548-575, `multiagents_report`: the crew's raw reply is
written to the report file with no validation whatsoever and the state is
not modified. -/
def multiagents_report (env : FlowEnv) : String × String :=
  ("summary_reports/report_" ++ env.reportId ++ ".md", env.reportRaw)

/-- Everything observable about a completed run. -/
structure RunResult where
  state : PatientState
  elimIters : Nat
  files : List (String × String)
  treatCrewCalled : Bool
  treatCrewInputs : Option TreatCrewInputs
deriving Repr, DecidableEq

/-- The five-stage flow (`@start`/`@listen` chain of `RehabFlow`): intake,
inquiry refinement, diagnosis (with `fuel` bounding the unbounded
elimination sub-loop), treatment planning, report synthesis.  `none` means
the elimination sub-loop did not finish within `fuel`; a completed run is
exactly a `some` result. -/
def pipeline (env : FlowEnv) (fuel : Nat) : Option RunResult :=
  let st0 := get_user_input
  let po1 := (inquiry_assistance env.inquiryReplies env.inquiryAnswers st0.process_outline).1
  let st1 := { st0 with process_outline := po1 }
  match diagnosis_assistance env fuel st1 with
  | none => none
  | some (st2, n) =>
    let tr := treatment_plan_creation env st2
    some { state := tr.state
           elimIters := n
           files := [tr.file, multiagents_report env]
           treatCrewCalled := tr.crewCalled
           treatCrewInputs := tr.crewInputs }

/-- The completed sections of a run. -/
def csOf (r : RunResult) : List String :=
  r.state.process_outline.complete_sections

/-- The audience level of a run. -/
def audienceOf (r : RunResult) : String :=
  r.state.audience_level

/-- Elimination-loop observation: final conclusion, basis and iteration
count. -/
def elimProj (p : ElimState × Nat) : String × String × Nat :=
  (p.1.diagnosis_conclusion, p.1.diagnosis_basis, p.2)

/-- Diagnosis-stage observation: elimination-iteration count and the
stored diagnosis result. -/
def diagProj (p : PatientState × Nat) : Nat × List (String × String) :=
  (p.2, p.1.diagnosis_result)

/-! ## Concrete environments for witnesses and counterexamples -/

/-- A benign environment: the inquiry advisor reports completion at once,
the operator bypasses diagnosis and treatment planning with `q`. -/
def quietEnv : FlowEnv :=
  { inquiryReplies := fun _ => { inquiry_complete := "yes" }
    inquiryAnswers := fun _ _ => ""
    diagSkipInput := "q"
    manualConclusion := "左臂骨折愈合不良"
    manualBasis := "X线显示愈合不良"
    diagReply := {}
    diagQuestionAnswer := ""
    diagCheckAnswers := fun _ => ""
    elimReplies := fun _ => {}
    elimCheckAnswers := fun _ _ => ""
    elimQuestionAnswers := fun _ => ""
    planSkipInput := "q"
    manualPlan := "固定并逐步康复训练"
    planId := "id-plan"
    planReply := []
    planRaw := ""
    reportRaw := ""
    reportId := "id-report" }

/-- A concrete elimination-loop state for witnesses. -/
def sampleElimState : ElimState :=
  { diagnosis_conclusion := "c", diagnosis_basis := "b", str_of_other := "x",
    dial := DialVal.dict [], po := {} }

/-- An elimination reply that reports no further inquiries needed. -/
def noFurtherReply : ElimReply := { further_inquiries_needed := "No" }

/-- An elimination reply that asks for more but suggests no auxiliary
check. -/
def noChecksReply : ElimReply :=
  { further_inquiries_needed := "yes",
    other_diagnosis_possibility := [[("possibility", "骨裂")]] }

/-- An outline carrying both recorded dialectics and supplementary
examinations (distinct values). -/
def dialecticsOutline : ProcessOutline :=
  { suggested_diagnostic_dialectics := [[("问题1", "回答1")]],
    supplementary_auxiliary_examinations := [("超声", "未见异常")] }

/-- A state carrying `dialecticsOutline`. -/
def dialecticsState : PatientState :=
  { get_user_input with process_outline := dialecticsOutline }

/-- `quietEnv` but without the treatment-planning bypass. -/
def crewPlanEnv : FlowEnv := { quietEnv with planSkipInput := "" }

/-- `quietEnv` but the inquiry advisor never reports completion. -/
def stubbornInquiryEnv : FlowEnv :=
  { quietEnv with inquiryReplies := fun _ => { inquiry_complete := "no" } }

/-- `quietEnv` but without the diagnosis bypass. -/
def crewDiagEnv : FlowEnv := { quietEnv with diagSkipInput := "" }

/-! ## Lemmas on stripping and the fence regex (claim C6) -/

theorem dropWhile_append_ws (p : Char → Bool) (l m : List Char) :
    (l ++ m).dropWhile p =
      if l.dropWhile p = [] then m.dropWhile p else l.dropWhile p ++ m := by
  induction l with
  | nil => simp
  | cons a t ih =>
    by_cases h : p a
    · simpa [List.dropWhile_cons, h] using ih
    · simp [List.dropWhile_cons, h]

theorem lstrip_append (l m : List Char) :
    lstrip (l ++ m) = if lstrip l = [] then lstrip m else lstrip l ++ m :=
  dropWhile_append_ws isWS l m

theorem rstrip_nil_iff (l : List Char) : rstrip l = [] ↔ ∀ x ∈ l, isWS x := by
  simp [rstrip, List.dropWhile_eq_nil_iff]

theorem rstrip_cons (a : Char) (d : List Char) :
    rstrip (a :: d) =
      if rstrip d = [] then (if isWS a then [] else [a]) else a :: rstrip d := by
  have hrev : rstrip d = [] ↔ d.reverse.dropWhile isWS = [] := by
    simp [rstrip]
  by_cases h : d.reverse.dropWhile isWS = []
  · by_cases ha : isWS a <;>
      simp [rstrip, List.reverse_cons, dropWhile_append_ws, h, hrev.mpr h,
        List.dropWhile, ha]
  · have h' : ¬ rstrip d = [] := fun hh => h (hrev.mp hh)
    simp [rstrip, List.reverse_cons, dropWhile_append_ws, h, h']

theorem hasFence_cons_false {a : Char} {l : List Char}
    (h : hasFence (a :: l) = false) :
    startsWithFence (a :: l) = false ∧ hasFence l = false := by
  simpa [hasFence] using h

theorem hasFence_dropWhile (p : Char → Bool) (l : List Char)
    (h : hasFence l = false) : hasFence (l.dropWhile p) = false := by
  induction l with
  | nil => simpa using h
  | cons a t ih =>
    obtain ⟨h1, h2⟩ := hasFence_cons_false h
    by_cases hp : p a
    · simpa [List.dropWhile_cons, hp] using ih h2
    · simpa [List.dropWhile_cons, hp, hasFence, h1] using h2

theorem not_close_of_noFence (d : List Char) (h : hasFence d = false) :
    startsWithFence (d ++ nlFence) = false := by
  match d, h with
  | [], _ => decide
  | [a], _ =>
    show startsWithFence (a :: nlFence) = false
    simp [nlFence, startsWithFence, btk]
  | [a, b], _ =>
    show startsWithFence (a :: b :: nlFence) = false
    simp [nlFence, startsWithFence, btk]
  | a :: b :: c :: t, h =>
    obtain ⟨h1, _⟩ := hasFence_cons_false h
    simpa [startsWithFence] using h1

theorem closesAt_append (c' : List Char) (h : hasFence c' = false) :
    closesAt (c' ++ nlFence) = (lstrip c').isEmpty := by
  rw [closesAt, lstrip_append]
  by_cases hc : lstrip c' = []
  · simp [hc]
    decide
  · rw [if_neg hc]
    have : hasFence (lstrip c') = false := hasFence_dropWhile isWS c' h
    simp [hc, not_close_of_noFence _ this, List.isEmpty_iff]

theorem findGroup_append (c' : List Char) (h : hasFence c' = false) :
    findGroup (c' ++ nlFence) = some (rstrip c') := by
  induction c' with
  | nil => simp only [List.nil_append]; decide
  | cons a d ih =>
    obtain ⟨_, hd⟩ := hasFence_cons_false h
    have hgo : (a :: d) ++ nlFence = a :: (d ++ nlFence) := rfl
    by_cases hws : lstrip (a :: d) = []
    · have hcl : closesAt ((a :: d) ++ nlFence) = true := by
        rw [closesAt_append _ h, hws]; rfl
      have hall : ∀ x ∈ a :: d, isWS x := List.dropWhile_eq_nil_iff.mp hws
      rw [hgo, findGroup, ← hgo, hcl, if_pos rfl, (rstrip_nil_iff _).mpr hall]
    · have hcl : closesAt ((a :: d) ++ nlFence) = false := by
        rw [closesAt_append _ h]
        cases hl : lstrip (a :: d) with
        | nil => exact absurd hl hws
        | cons x xs => rfl
      rw [hgo, findGroup, ← hgo, hcl]
      simp only [Bool.false_eq_true, if_false, ih hd, Option.map_some']
      congr 1
      rw [rstrip_cons]
      by_cases h1 : rstrip d = []
      · have hall : ∀ x ∈ d, isWS x := (rstrip_nil_iff d).mp h1
        by_cases ha : isWS a
        · exfalso
          apply hws
          exact List.dropWhile_eq_nil_iff.mpr (by
            intro x hx
            rcases List.mem_cons.mp hx with rfl | hx
            · exact ha
            · exact hall x hx)
        · simp [h1, ha]
      · simp [h1]

theorem matchFenceAt_none (s : List Char) (h : startsWithFence s = false) :
    matchFenceAt s = none := by
  match s, h with
  | [], _ => rfl
  | [a], _ => rfl
  | [a, b], _ => rfl
  | a :: b :: c :: t, h =>
    rw [matchFenceAt]
    rw [if_neg]
    simpa [startsWithFence] using h

theorem searchFence_eq_none (s : List Char) (h : hasFence s = false) :
    searchFence s = none := by
  induction s with
  | nil => rfl
  | cons a rest ih =>
    obtain ⟨h1, h2⟩ := hasFence_cons_false h
    rw [searchFence, matchFenceAt_none _ h1]
    exact ih h2

theorem clean_noFence (c : List Char) (h : hasFence c = false) :
    clean_and_parse_json c = pyStrip c := by
  rw [clean_and_parse_json, searchFence_eq_none c h]

theorem clean_wrapJson (c : List Char) (h : hasFence c = false) :
    clean_and_parse_json (wrapJson c) = pyStrip c := by
  have hw : wrapJson c =
      btk :: btk :: btk :: ('j' :: 's' :: 'o' :: 'n' :: '\n' :: (c ++ nlFence)) := by
    have hjs : "```json\n".toList =
        btk :: btk :: btk :: 'j' :: 's' :: 'o' :: 'n' :: '\n' :: [] := by decide
    show "```json\n".toList ++ c ++ "\n```".toList = _
    rw [hjs]
    simp [nlFence]
  have hmatch : matchFenceAt (wrapJson c) = some (pyStrip c) := by
    rw [hw, matchFenceAt]
    rw [if_pos (by decide)]
    have htag : startsWithTag ('j' :: 's' :: 'o' :: 'n' :: '\n' :: (c ++ nlFence)) = true := rfl
    rw [htag, if_pos rfl]
    have hdrop : List.drop 4 ('j' :: 's' :: 'o' :: 'n' :: '\n' :: (c ++ nlFence)) =
        '\n' :: (c ++ nlFence) := rfl
    rw [hdrop]
    have hnl : lstrip ('\n' :: (c ++ nlFence)) = lstrip (c ++ nlFence) := by
      rw [lstrip, List.dropWhile_cons, if_pos (show isWS '\n' = true by decide)]
      rfl
    rw [hnl, lstrip_append]
    by_cases hc : lstrip c = []
    · rw [if_pos hc]
      have hps : pyStrip c = [] := by rw [pyStrip, hc]; rfl
      rw [hps]
      decide
    · rw [if_neg hc]
      rw [findGroup_append (lstrip c) (hasFence_dropWhile isWS c h)]
      rfl
  have hsearch : searchFence (wrapJson c) = some (pyStrip c) := by
    rw [hw, searchFence, ← hw, hmatch]
  rw [clean_and_parse_json, hsearch]

/-- C6, counterexample: for content that itself contains a triple-backtick
run, stripping the ```json-wrapped text is NOT the same as stripping the
content directly — the lazy regex cuts at the inner fence (group `"a"`),
while the unwrapped content has no closing fence and is returned whole. -/
theorem fence_wrap_strip_counterexample :
    clean_and_parse_json (wrapJson "a```b".toList) ≠
      clean_and_parse_json ("a```b".toList) := by decide

/-- C6 (amended): for every content string containing no triple-backtick
run, applying `clean_and_parse_json` to the content wrapped in ```json
fence markers yields the same result as applying it to the content
directly (both equal the stripped content), so the subsequent parse is
identical. -/
theorem fence_wrap_strip_roundtrip (c : List Char) (h : hasFence c = false) :
    clean_and_parse_json (wrapJson c) = clean_and_parse_json c := by
  rw [clean_wrapJson c h, clean_noFence c h]

/-- Witness for `fence_wrap_strip_roundtrip` at a concrete fence-free
content. -/
theorem fence_wrap_strip_witness :
    hasFence "hello".toList = false ∧
      clean_and_parse_json (wrapJson "hello".toList) =
        clean_and_parse_json ("hello".toList) :=
  ⟨by decide, fence_wrap_strip_roundtrip ("hello".toList) (by decide)⟩

/-! ## Claim C2: malformed agent responses -/

/-- C2, counterexample: the report-synthesis stage is LLM-backed but
performs no validation at all — a run whose report-crew response is the
empty string completes normally, silently writing the empty report file;
no `MalformedAgentOutput` condition is raised for it. -/
theorem report_accepts_empty_counterexample :
    quietEnv.reportRaw = "" ∧
      (pipeline quietEnv 1).map RunResult.files =
        some [("treatment_plans/treatment_plan_id-plan.md", "固定并逐步康复训练"),
              ("summary_reports/report_id-report.md", "")] :=
  ⟨rfl, by decide⟩

/-- C2 (amended): in the inquiry-refinement stage — the stage whose
response handling implements all three checks (main.py lines 199-210) — a
response whose fence-stripped text is empty/whitespace-only, or does not
start with the object delimiter, or does not parse, raises an error and no
default is substituted for the response. -/
theorem inquiry_malformed_rejected (loads : List Char → Option Json)
    (response : List Char)
    (h : pyStrip (clean_and_parse_json response) = [] ∨
         startsWithObj (pyStrip (clean_and_parse_json response)) = false ∨
         loads (clean_and_parse_json response) = none) :
    isErrB (validateInquiryResponse loads response) = true := by
  unfold validateInquiryResponse
  by_cases h1 : pyStrip (clean_and_parse_json response) = []
  · rw [if_pos h1]; rfl
  · rw [if_neg h1]
    by_cases h2 : startsWithObj (pyStrip (clean_and_parse_json response)) = true
    · rw [if_neg (by simp [h2])]
      rcases h with h | h | h
      · exact absurd h h1
      · rw [h2] at h; cases h
      · rw [h]; rfl
    · rw [if_pos (by simpa using h2)]; rfl

/-- Witness for `inquiry_malformed_rejected`: the empty response is
rejected. -/
theorem inquiry_malformed_rejected_witness :
    isErrB (validateInquiryResponse (fun _ => none) ("".toList)) = true :=
  inquiry_malformed_rejected (fun _ => none) ("".toList) (Or.inl (by decide))

/-! ## Claim C5: the inquiry-refinement loop is bounded by 2 -/

theorem inquiryLoopGo_eq_of_mem (replies : Nat → InquiryReply)
    (ans : Nat → Nat → String) (r it : Nat) (po : ProcessOutline)
    (h : "initial_inquiry" ∈ po.complete_sections) :
    inquiryLoopGo replies ans r it po = (po, 0) := by
  cases r with
  | zero => rfl
  | succ r => rw [inquiryLoopGo, if_pos h]

/-- C5: the refinement loop executes at most `remaining` further
iterations (so at most 2 from its entry, where `iter_times = 0` and
`remaining = 2`), and its body is not entered when `"initial_inquiry"` is
already among the completed sections; the counter is advanced by one on
every iteration by construction (`it + 1` in `inquiryLoopGo`). -/
theorem inquiry_loop_bounded (replies : Nat → InquiryReply)
    (ans : Nat → Nat → String) :
    (∀ r it po, (inquiryLoopGo replies ans r it po).2 ≤ r) ∧
    (∀ po, (inquiry_assistance replies ans po).2 ≤ 2) ∧
    (∀ r it po, "initial_inquiry" ∈ po.complete_sections →
      inquiryLoopGo replies ans r it po = (po, 0)) := by
  have hle : ∀ r it po, (inquiryLoopGo replies ans r it po).2 ≤ r := by
    intro r
    induction r with
    | zero => intro it po; exact Nat.le_refl 0
    | succ r ih =>
      intro it po
      rw [inquiryLoopGo]
      by_cases h : "initial_inquiry" ∈ po.complete_sections
      · rw [if_pos h]; exact Nat.zero_le _
      · rw [if_neg h]
        exact Nat.succ_le_succ (ih (it + 1) _)
  exact ⟨hle, fun po => hle 2 0 po, inquiryLoopGo_eq_of_mem replies ans⟩

/-- Witness for `inquiry_loop_bounded` at concrete arguments. -/
theorem inquiry_loop_bounded_witness :
    (inquiry_assistance quietEnv.inquiryReplies quietEnv.inquiryAnswers {}).2 ≤ 2 ∧
      inquiryLoopGo quietEnv.inquiryReplies quietEnv.inquiryAnswers 2 0
        { complete_sections := ["initial_inquiry"] } =
        ({ complete_sections := ["initial_inquiry"] }, 0) :=
  ⟨(inquiry_loop_bounded _ _).2.1 {},
   (inquiry_loop_bounded _ _).2.2 2 0 { complete_sections := ["initial_inquiry"] }
     (by decide)⟩

/-! ## Claim C3: `further_inquiries_needed == "no"` always exits the loop -/

/-- C3: whenever an iteration of the elimination sub-loop receives a reply
whose `further_inquiries_needed` lowers to `"no"`, the loop terminates
after that iteration (one iteration executed, conclusion and basis taken
from that reply), for every state — in particular for every remaining
serialized alternatives list. -/
theorem elim_no_terminates (replies : Nat → ElimReply)
    (checkAns : Nat → Nat → String) (qAns : Nat → String) (fuel k : Nat)
    (s : ElimState) (h : pyLower (replies k).further_inquiries_needed = "no") :
    elimLoop replies checkAns qAns (fuel + 1) k s =
      some ({ s with diagnosis_conclusion := (replies k).diagnosis_conclusion
                     diagnosis_basis := (replies k).diagnosis_basis }, 1) := by
  have hstep : elimStep (replies k) (checkAns k) (qAns k) s =
      ({ s with diagnosis_conclusion := (replies k).diagnosis_conclusion
                diagnosis_basis := (replies k).diagnosis_basis }, true) := by
    rw [elimStep, if_pos h]
  rw [elimLoop]
  rw [hstep]
  rfl

/-- Witness for `elim_no_terminates`. -/
theorem elim_no_terminates_witness :
    elimLoop (fun _ => noFurtherReply) (fun _ _ => "") (fun _ => "") 1 0
        sampleElimState =
      some ({ sampleElimState with diagnosis_conclusion := "无更新诊断结论", diagnosis_basis := "无更新诊断依据" }, 1) :=
  elim_no_terminates (fun _ => noFurtherReply) (fun _ _ => "") (fun _ => "") 0 0
    sampleElimState (by decide)

/-! ## Claim C9: empty suggested-check list also exits the loop -/

/-- C9: an elimination reply with `further_inquiries_needed` ≠ `"no"`, a
non-empty revised alternatives list, and an empty suggested
auxiliary-check list still terminates the sub-loop after that iteration,
keeping that reply's conclusion and basis as final. -/
theorem elim_no_checks_terminates (replies : Nat → ElimReply)
    (checkAns : Nat → Nat → String) (qAns : Nat → String) (fuel k : Nat)
    (s : ElimState)
    (h1 : ¬ pyLower (replies k).further_inquiries_needed = "no")
    (h2 : (replies k).other_diagnosis_possibility ≠ [])
    (h3 : (replies k).suggested_auxiliary_check = []) :
    (elimLoop replies checkAns qAns (fuel + 1) k s).map elimProj =
      some ((replies k).diagnosis_conclusion, (replies k).diagnosis_basis, 1) := by
  have hne : (replies k).other_diagnosis_possibility.isEmpty = false := by
    cases hp : (replies k).other_diagnosis_possibility with
    | nil => exact absurd hp h2
    | cons x xs => rfl
  have hready : (replies k).suggested_auxiliary_check.isEmpty = true := by
    rw [h3]; rfl
  have hstep : (elimStep (replies k) (checkAns k) (qAns k) s).2 = true ∧
      (elimStep (replies k) (checkAns k) (qAns k) s).1.diagnosis_conclusion =
        (replies k).diagnosis_conclusion ∧
      (elimStep (replies k) (checkAns k) (qAns k) s).1.diagnosis_basis =
        (replies k).diagnosis_basis := by
    rw [elimStep, if_neg h1]
    by_cases hq : qAns k ≠ "" <;> simp [hne, hready, hq]
  rw [elimLoop]
  rw [if_pos hstep.1]
  rw [Option.map_some']
  rw [elimProj, hstep.2.1, hstep.2.2]

/-- Witness for `elim_no_checks_terminates`. -/
theorem elim_no_checks_terminates_witness :
    (elimLoop (fun _ => noChecksReply) (fun _ _ => "") (fun _ => "") 1 0
        sampleElimState).map elimProj =
      some ("无更新诊断结论", "无更新诊断依据", 1) :=
  elim_no_checks_terminates (fun _ => noChecksReply) (fun _ _ => "") (fun _ => "")
    0 0 sampleElimState (by decide) (by decide) (by decide)

/-! ## Claim C4: empty alternatives list skips the elimination loop -/

/-- C4: if the diagnosis reply's alternative-possibility list is empty
(and the stage is not bypassed), the elimination sub-loop body is never
executed (zero iterations, even with zero fuel) and the stage completes
with the conclusion and basis from the diagnosis reply. -/
theorem diag_empty_possibilities (env : FlowEnv) (fuel : Nat) (st : PatientState)
    (h1 : ¬ pyLower env.diagSkipInput = "q")
    (h2 : env.diagReply.other_diagnosis_possibility = []) :
    (diagnosis_assistance env fuel st).map diagProj =
      some (0, [("diagnosis_conclusion", env.diagReply.diagnosis_conclusion),
                ("diagnosis_basis", env.diagReply.diagnosis_basis)]) := by
  rw [diagnosis_assistance, if_neg h1]
  dsimp only
  rw [h2]
  rfl

/-- Witness for `diag_empty_possibilities`: the quiet diagnosis reply with
no alternatives, zero fuel. -/
theorem diag_empty_possibilities_witness :
    (diagnosis_assistance crewDiagEnv 0 get_user_input).map diagProj =
      some (0, [("diagnosis_conclusion", "无诊断结论"),
                ("diagnosis_basis", "无诊断依据")]) :=
  diag_empty_possibilities crewDiagEnv 0 get_user_input (by decide) (by decide)

/-! ## Claim C8: manual treatment-plan bypass -/

theorem dlookup_dinsert (d : List (String × String)) (k v : String) :
    dlookup (dinsert d k v) k = some v := by
  induction d with
  | nil => simp [dinsert, dlookup]
  | cons kv rest ih =>
    by_cases h : kv.1 = k
    · simp [dinsert, dlookup, h]
    · simp [dinsert, dlookup, h, ih]

/-- C8: when the operator bypasses treatment planning with `q`, the
manually entered plan text is written verbatim to the freshly generated
treatment-plan file path, `treatment_plan["manual_treatment_plan"]` equals
that exact text, and the agent crew is not invoked. -/
theorem treatment_bypass (env : FlowEnv) (st : PatientState)
    (h : pyLower env.planSkipInput = "q") :
    (treatment_plan_creation env st).file =
      ("treatment_plans/treatment_plan_" ++ env.planId ++ ".md", env.manualPlan) ∧
    dlookup (treatment_plan_creation env st).state.treatment_plan
      "manual_treatment_plan" = some env.manualPlan ∧
    (treatment_plan_creation env st).crewCalled = false ∧
    (treatment_plan_creation env st).crewInputs = none := by
  rw [treatment_plan_creation, if_pos h]
  exact ⟨rfl, dlookup_dinsert st.treatment_plan "manual_treatment_plan" env.manualPlan,
    rfl, rfl⟩

/-- Witness for `treatment_bypass` at the quiet environment. -/
theorem treatment_bypass_witness :
    (treatment_plan_creation quietEnv get_user_input).file =
      ("treatment_plans/treatment_plan_" ++ quietEnv.planId ++ ".md",
        quietEnv.manualPlan) ∧
    dlookup (treatment_plan_creation quietEnv get_user_input).state.treatment_plan
      "manual_treatment_plan" = some quietEnv.manualPlan ∧
    (treatment_plan_creation quietEnv get_user_input).crewCalled = false ∧
    (treatment_plan_creation quietEnv get_user_input).crewInputs = none :=
  treatment_bypass quietEnv get_user_input (by decide)

/-! ## Claim C10: the mislabelled treatment-crew binding -/

/-- C10: in the non-bypass treatment-planning stage, the crew input
binding named `suggested_diagnostic_dialectics` always equals the
supplementary auxiliary-examinations mapping (main.py line 462 assigns the
examinations dict to that variable), for every session state — so the
accumulated diagnostic question/answer pairs are never handed to the
treatment-planning crew. -/
theorem treatment_dialectics_binding (env : FlowEnv) (st : PatientState)
    (h : ¬ pyLower env.planSkipInput = "q") :
    (treatment_plan_creation env st).crewInputs.map
        TreatCrewInputs.suggested_diagnostic_dialectics =
      some st.process_outline.supplementary_auxiliary_examinations ∧
    (treatment_plan_creation env st).crewCalled = true := by
  rw [treatment_plan_creation, if_neg h]
  exact ⟨rfl, rfl⟩

/-- Witness for `treatment_dialectics_binding` at a state with non-empty,
distinct dialectics and examinations. -/
theorem treatment_dialectics_binding_witness :
    (treatment_plan_creation crewPlanEnv dialecticsState).crewInputs.map
        TreatCrewInputs.suggested_diagnostic_dialectics =
      some [("超声", "未见异常")] ∧
    (treatment_plan_creation crewPlanEnv dialecticsState).crewCalled = true :=
  treatment_dialectics_binding crewPlanEnv dialecticsState (by decide)

/-! ## Stage-local invariants on `complete_sections` and `audience_level` -/

theorem inquiryStep_cs (reply : InquiryReply) (ans : Nat → String)
    (po : ProcessOutline) :
    (inquiryStep reply ans po).complete_sections = po.complete_sections ∨
    (inquiryStep reply ans po).complete_sections =
      po.complete_sections ++ ["initial_inquiry"] := by
  rw [inquiryStep]
  by_cases h : pyLower reply.inquiry_complete = "yes"
  · right; rw [if_pos h]
  · left; rw [if_neg h]

theorem inquiryLoopGo_cs (replies : Nat → InquiryReply) (ans : Nat → Nat → String) :
    ∀ (r it : Nat) (po : ProcessOutline),
      "initial_inquiry" ∉ po.complete_sections →
      (inquiryLoopGo replies ans r it po).1.complete_sections = po.complete_sections ∨
      (inquiryLoopGo replies ans r it po).1.complete_sections =
        po.complete_sections ++ ["initial_inquiry"] := by
  intro r
  induction r with
  | zero => intro it po _; left; rfl
  | succ r ih =>
    intro it po h
    rw [inquiryLoopGo, if_neg h]
    dsimp only
    rcases inquiryStep_cs (replies it) (ans it) po with hs | hs
    · have h' : "initial_inquiry" ∉
          (inquiryStep (replies it) (ans it) po).complete_sections := by
        rw [hs]; exact h
      rcases ih (it + 1) _ h' with h2 | h2
      · left; rw [h2, hs]
      · right; rw [h2, hs]
    · have h' : "initial_inquiry" ∈
          (inquiryStep (replies it) (ans it) po).complete_sections := by
        rw [hs]; exact List.mem_append_right _ (List.mem_singleton.mpr rfl)
      rw [inquiryLoopGo_eq_of_mem replies ans r (it + 1) _ h']
      right; exact hs

theorem elimStep_cs (reply : ElimReply) (checkAns : Nat → String) (qAns : String)
    (s : ElimState) :
    (elimStep reply checkAns qAns s).1.po.complete_sections =
      s.po.complete_sections := by
  rw [elimStep]
  by_cases h1 : pyLower reply.further_inquiries_needed = "no"
  · rw [if_pos h1]
  · rw [if_neg h1]
    by_cases h2 : reply.other_diagnosis_possibility.isEmpty
    · simp [h2]
    · by_cases h3 : reply.suggested_auxiliary_check.isEmpty <;>
        by_cases h4 : qAns ≠ "" <;>
        simp [h2, h3, h4]

theorem elimLoop_cs (replies : Nat → ElimReply) (checkAns : Nat → Nat → String)
    (qAns : Nat → String) :
    ∀ (fuel k : Nat) (s es : ElimState) (n : Nat),
      elimLoop replies checkAns qAns fuel k s = some (es, n) →
      es.po.complete_sections = s.po.complete_sections := by
  intro fuel
  induction fuel with
  | zero => intro k s es n h; exact absurd h (by simp [elimLoop])
  | succ fuel ih =>
    intro k s es n h
    rw [elimLoop] at h
    by_cases hr : (elimStep (replies k) (checkAns k) (qAns k) s).2 = true
    · rw [if_pos hr] at h
      have hes : es = (elimStep (replies k) (checkAns k) (qAns k) s).1 :=
        (Prod.mk.injEq _ _ _ _ ▸ Option.some.inj h).1.symm
      rw [hes]
      exact elimStep_cs _ _ _ _
    · rw [if_neg hr] at h
      rcases Option.map_eq_some'.mp h with ⟨⟨es', n'⟩, hloop, hpair⟩
      have hes : es = es' := (Prod.mk.injEq _ _ _ _ ▸ hpair).1.symm
      rw [hes, ih (k + 1) _ es' n' hloop]
      exact elimStep_cs _ _ _ _

theorem diagOutlineUpd_cs (env : FlowEnv) (reply : DiagnosisReply)
    (po : ProcessOutline) :
    (diagOutlineUpd env reply po).complete_sections = po.complete_sections := by
  rw [diagOutlineUpd]
  by_cases h1 : env.diagQuestionAnswer ≠ "" <;>
    by_cases h2 : reply.suggested_auxiliary_examinations.isEmpty <;>
    simp [h1, h2]

theorem diagnosis_cs (env : FlowEnv) (fuel : Nat) (st st' : PatientState) (n : Nat)
    (h : diagnosis_assistance env fuel st = some (st', n)) :
    st'.process_outline.complete_sections =
      st.process_outline.complete_sections ++ ["diagnosis"] ∧
    st'.audience_level = st.audience_level := by
  rw [diagnosis_assistance] at h
  by_cases hq : pyLower env.diagSkipInput = "q"
  · rw [if_pos hq] at h
    have := Option.some.inj h
    have hst : st' = _ := (Prod.mk.injEq _ _ _ _ ▸ this).1.symm
    rw [hst]
    exact ⟨rfl, rfl⟩
  · rw [if_neg hq] at h
    dsimp only at h
    by_cases he : env.diagReply.other_diagnosis_possibility.isEmpty
    · rw [if_pos he] at h
      have := Option.some.inj h
      have hst : st' = _ := (Prod.mk.injEq _ _ _ _ ▸ this).1.symm
      rw [hst]
      constructor
      · show (diagOutlineUpd env env.diagReply st.process_outline).complete_sections ++
            ["diagnosis"] = _
        rw [diagOutlineUpd_cs]
      · rfl
    · rw [if_neg he] at h
      cases hloop : elimLoop env.elimReplies env.elimCheckAnswers
          env.elimQuestionAnswers fuel 0
          { diagnosis_conclusion := env.diagReply.diagnosis_conclusion
            diagnosis_basis := env.diagReply.diagnosis_basis
            str_of_other := strOfPossibilities env.diagReply.other_diagnosis_possibility
            dial := match (diagOutlineUpd env env.diagReply
                st.process_outline).suggested_diagnostic_dialectics.getLast? with
              | some d => DialVal.dict d
              | none => DialVal.str "暂无建议的诊断对话"
            po := diagOutlineUpd env env.diagReply st.process_outline } with
      | none => rw [hloop] at h; cases h
      | some p =>
        obtain ⟨es, m⟩ := p
        rw [hloop] at h
        have := Option.some.inj h
        have hst : st' = _ := (Prod.mk.injEq _ _ _ _ ▸ this).1.symm
        rw [hst]
        constructor
        · show es.po.complete_sections ++ ["diagnosis"] = _
          rw [elimLoop_cs env.elimReplies env.elimCheckAnswers
            env.elimQuestionAnswers fuel 0 _ es m hloop]
          show (diagOutlineUpd env env.diagReply st.process_outline).complete_sections ++
            ["diagnosis"] = _
          rw [diagOutlineUpd_cs]
        · rfl

theorem treatment_cs (env : FlowEnv) (st : PatientState) :
    (treatment_plan_creation env st).state.process_outline.complete_sections =
      st.process_outline.complete_sections ++ ["treatment plan"] ∧
    (treatment_plan_creation env st).state.audience_level = st.audience_level := by
  rw [treatment_plan_creation]
  by_cases h : pyLower env.planSkipInput = "q"
  · rw [if_pos h]; exact ⟨rfl, rfl⟩
  · rw [if_neg h]; exact ⟨rfl, rfl⟩

/-- Destructuring a completed run: the diagnosis stage succeeded on the
state produced by intake and inquiry refinement, and the final state is the
treatment stage's output on the diagnosis stage's state. -/
theorem pipeline_some (env : FlowEnv) (fuel : Nat) (r : RunResult)
    (h : pipeline env fuel = some r) :
    ∃ st2 n, diagnosis_assistance env fuel
        { get_user_input with process_outline :=
          (inquiry_assistance env.inquiryReplies env.inquiryAnswers
            get_user_input.process_outline).1 } = some (st2, n) ∧
      r.state = (treatment_plan_creation env st2).state := by
  rw [pipeline] at h
  cases hd : diagnosis_assistance env fuel
      { get_user_input with process_outline :=
        (inquiry_assistance env.inquiryReplies env.inquiryAnswers
          get_user_input.process_outline).1 } with
  | none => rw [hd] at h; cases h
  | some p =>
    obtain ⟨st2, n⟩ := p
    rw [hd] at h
    exact ⟨st2, n, rfl, by rw [← Option.some.inj h]⟩

/-- The completed sections produced by the inquiry-refinement stage on the
fresh intake state: nothing, or exactly `["initial_inquiry"]`. -/
theorem inquiry_cs_cases (env : FlowEnv) :
    (inquiry_assistance env.inquiryReplies env.inquiryAnswers
      get_user_input.process_outline).1.complete_sections = [] ∨
    (inquiry_assistance env.inquiryReplies env.inquiryAnswers
      get_user_input.process_outline).1.complete_sections = ["initial_inquiry"] :=
  inquiryLoopGo_cs env.inquiryReplies env.inquiryAnswers 2 0
    get_user_input.process_outline (by decide)

/-! ## Claim C1: the shape of `complete_sections` over completed runs -/

/-- C1, counterexample: a completed run in which the inquiry advisor never
reports completion within the two allowed passes ends with
`complete_sections = ["diagnosis", "treatment plan"]` — `"initial_inquiry"`
is never appended, so a completed run need not contain all three entries.
-/
theorem complete_sections_counterexample :
    (pipeline stubbornInquiryEnv 1).map csOf =
      some ["diagnosis", "treatment plan"] ∧
    "initial_inquiry" ∉ ["diagnosis", "treatment plan"] :=
  ⟨by decide, by decide⟩

/-- C1 (amended): for every completed run, `complete_sections` is either
`["diagnosis", "treatment plan"]` or
`["initial_inquiry", "diagnosis", "treatment plan"]`: `"diagnosis"` and
`"treatment plan"` are appended exactly once each, `"initial_inquiry"` at
most once (it is absent when the inquiry agent never reports completion
within the two passes), and the entries present appear in the claimed
relative order. -/
theorem complete_sections_shape (env : FlowEnv) (fuel : Nat) (r : RunResult)
    (h : pipeline env fuel = some r) :
    csOf r = ["diagnosis", "treatment plan"] ∨
    csOf r = ["initial_inquiry", "diagnosis", "treatment plan"] := by
  obtain ⟨st2, n, hd, hr⟩ := pipeline_some env fuel r h
  obtain ⟨hdcs, _⟩ := diagnosis_cs env fuel _ st2 n hd
  obtain ⟨htcs, _⟩ := treatment_cs env st2
  have hcs : csOf r = st2.process_outline.complete_sections ++ ["treatment plan"] := by
    rw [csOf, hr, htcs]
  rw [hcs, hdcs]
  rcases inquiry_cs_cases env with h1 | h1
  · left
    show ((inquiry_assistance env.inquiryReplies env.inquiryAnswers
      get_user_input.process_outline).1.complete_sections ++ ["diagnosis"]) ++
        ["treatment plan"] = _
    rw [h1]
    rfl
  · right
    show ((inquiry_assistance env.inquiryReplies env.inquiryAnswers
      get_user_input.process_outline).1.complete_sections ++ ["diagnosis"]) ++
        ["treatment plan"] = _
    rw [h1]
    rfl

/-- Witness for `complete_sections_shape` on a completed concrete run. -/
theorem complete_sections_shape_witness :
    (pipeline quietEnv 1).map csOf = some ["diagnosis", "treatment plan"] ∨
    (pipeline quietEnv 1).map csOf =
      some ["initial_inquiry", "diagnosis", "treatment plan"] := by
  cases hp : pipeline quietEnv 1 with
  | none => exact absurd hp (by decide)
  | some r =>
    rcases complete_sections_shape quietEnv 1 r hp with h1 | h1
    · left; rw [Option.map_some', h1]
    · right; rw [Option.map_some', h1]

/-! ## Claim C7: the audience level -/

/-- C7: in every completed run the audience level equals
`"professional"` — hence it is one of the enumerated values
{patient, professional, expert} — it is assigned (once) during intake,
and the diagnosis and treatment stages only read it, never write it (the
inquiry stage returns an outline and cannot touch it, and report synthesis
does not modify state at all). -/
theorem audience_level_invariant (env : FlowEnv) (fuel : Nat) (r : RunResult)
    (h : pipeline env fuel = some r) :
    (r.state.audience_level = "professional" ∧
      r.state.audience_level ∈ ["patient", "professional", "expert"]) ∧
    get_user_input.audience_level = "professional" ∧
    (∀ env' fuel' st p, diagnosis_assistance env' fuel' st = some p →
      p.1.audience_level = st.audience_level) ∧
    (∀ env' st', (treatment_plan_creation env' st').state.audience_level =
      st'.audience_level) := by
  obtain ⟨st2, n, hd, hr⟩ := pipeline_some env fuel r h
  have hst2 := (diagnosis_cs env fuel _ st2 n hd).2
  have htr := (treatment_cs env st2).2
  have hget : get_user_input.audience_level = "professional" := by decide
  have hmain : r.state.audience_level = "professional" := by
    rw [hr, htr, hst2]
    exact hget
  refine ⟨⟨hmain, ?_⟩, hget, ?_, fun env' st' => (treatment_cs env' st').2⟩
  · rw [hmain]
    decide
  · intro env' fuel' st p hp
    obtain ⟨st', n'⟩ := p
    exact (diagnosis_cs env' fuel' st st' n' hp).2

/-- Witness for `audience_level_invariant` on a completed concrete run. -/
theorem audience_level_invariant_witness :
    (pipeline quietEnv 1).map audienceOf = some "professional" := by
  cases hp : pipeline quietEnv 1 with
  | none => exact absurd hp (by decide)
  | some r =>
    rw [Option.map_some', audienceOf,
      (audience_level_invariant quietEnv 1 r hp).1.1]

end RehabFlow
